import Mathlib

/-!
Verification of the topology data model in `mininet/topo.py`
(miniNeXT repository).

The Python source is shallowly embedded: Python dicts become association
lists preserving insertion order (first-occurrence lookup, in-place update,
append-on-new-key), Python exceptions (`KeyError`, failed assertions)
become `Option`/`Except` results, and the raised-state semantics of Python
(mutations before a raise persist) is kept by returning the partially
updated state in the error branch.
-/

set_option maxRecDepth 4096

/-- Python values appearing in metadata mappings (enough structure for the
    option dictionaries used by the topology model). -/
inductive PyVal where
  | bool (b : Bool)
  | int (n : Int)
  | str (s : String)
  | pynone
deriving DecidableEq, Repr

/-- Python truthiness of a value. -/
def PyVal.truthy : PyVal → Bool
  | .bool b => b
  | .int n => n != 0
  | .str s => s != ""
  | .pynone => false

/-- A Python dict with string keys (metadata / options mapping). -/
abbrev Opts := List (String × PyVal)

/-- First-occurrence lookup in an association list (Python `d[k]` /
    `k in d`). -/
def alookup {κ α : Type} [DecidableEq κ] : List (κ × α) → κ → Option α
  | [], _ => none
  | (k', v) :: rest, k => if k' = k then some v else alookup rest k

/-- Python `d[k] = v`: update the first occurrence in place, or append a
    new entry at the end (dict insertion order). -/
def aset {κ α : Type} [DecidableEq κ] : List (κ × α) → κ → α → List (κ × α)
  | [], k, v => [(k, v)]
  | (k', v') :: rest, k, v =>
      if k' = k then (k', v) :: rest else (k', v') :: aset rest k v

/-- Python `d.setdefault(k, v)`: keep an existing entry, else append. -/
def asetdefault {κ α : Type} [DecidableEq κ] : List (κ × α) → κ → α → List (κ × α)
  | [], k, v => [(k, v)]
  | (k', v') :: rest, k, v =>
      if k' = k then (k', v') :: rest else (k', v') :: asetdefault rest k v

/-- Apply `f` to the value of the first entry with key `k` (models mutating
    `d[k]` when `k` is present). -/
def amodify {κ α : Type} [DecidableEq κ] : List (κ × α) → κ → (α → α) → List (κ × α)
  | [], _, _ => []
  | (k', v') :: rest, k, f =>
      if k' = k then (k', f v') :: rest else (k', v') :: amodify rest k f

/-- Lexicographic comparison of character lists by code point. -/
def charListLt : List Char → List Char → Bool
  | [], [] => false
  | [], _ :: _ => true
  | _ :: _, [] => false
  | c :: cs, d :: ds =>
      if c.toNat < d.toNat then true
      else if c.toNat = d.toNat then charListLt cs ds else false

/-- Python plain string comparison (lexicographic on code points), as used
    by `sorted((src, dest))` in `MultiGraph.add_edge`. -/
def pyStrLt (a b : String) : Bool := charListLt a.data b.data

/-- One token of a natural-sort key: a non-digit run or a digit run read as
    a number. -/
inductive NTok where
  | str (s : String)
  | num (n : Nat)
deriving DecidableEq, Repr

/-- Group a character list into maximal runs of digits / non-digits. -/
def charRuns : List Char → List (Bool × List Char)
  | [] => []
  | c :: cs =>
      match charRuns cs with
      | [] => [(c.isDigit, [c])]
      | (b, r) :: rest =>
          if c.isDigit = b then (b, c :: r) :: rest
          else (c.isDigit, [c]) :: (b, r) :: rest

/-- Numeric value of a digit run. -/
def digitsToNat (cs : List Char) : Nat :=
  cs.foldl (fun a c => a * 10 + (c.toNat - 48)) 0

/-- Modelled from the spec (the helper `natural` lives in `mininet/util.py`,
    which is not part of this repository snapshot): the natural-sort key of
    a name "splits each name into alternating non-digit/digit runs",
    digit runs read numerically. -/
def natKey (s : String) : List NTok :=
  (charRuns s.data).map (fun br => if br.1 then NTok.num (digitsToNat br.2) else NTok.str (String.mk br.2))

/-- Comparison of single natural-key tokens: digit runs numerically,
    non-digit runs lexicographically (numbers sort before strings, as in
    the reference Python runtime). -/
def NTok.ltTok : NTok → NTok → Bool
  | .num a, .num b => decide (a < b)
  | .str a, .str b => pyStrLt a b
  | .num _, .str _ => true
  | .str _, .num _ => false

/-- Lexicographic comparison of token lists, run by run. -/
def ltKey : List NTok → List NTok → Bool
  | [], [] => false
  | [], _ :: _ => true
  | _ :: _, [] => false
  | a :: as, b :: bs => if NTok.ltTok a b then true else if a = b then ltKey as bs else false

/-- Modelled from the spec: the natural (alphanumeric-aware) strict order
    on names used by `Topo.sorted`. -/
def natLt (a b : String) : Bool := ltKey (natKey a) (natKey b)

/-- `Topo.sorted` (Python `sorted(items, key=natural)`) applied to a
    two-element list: stable, so the input order is kept unless the second
    key is strictly smaller. -/
def natSort2 (a b : String) : String × String :=
  if natLt b a then (b, a) else (a, b)

/-- Natural comparison of canonical pairs, the `naturalSeq` composite key
    used when sorting the link list. -/
def natPairLt (x y : String × String) : Bool :=
  if natLt x.1 y.1 then true
  else if natKey x.1 = natKey y.1 then natLt x.2 y.2 else false

/-- `MultiGraph`: nodes with adjacency lists, `self.data` in the source. -/
structure MultiGraph where
  data : List (String × List String)
deriving DecidableEq, Repr

/-- `MultiGraph.add_node`: idempotent registration. -/
def MultiGraph.add_node (g : MultiGraph) (node : String) : MultiGraph :=
  ⟨asetdefault g.data node []⟩

/-- Python `sorted((src, dest))` on a pair of strings. -/
def plainSort2 (a b : String) : String × String :=
  if pyStrLt b a then (b, a) else (a, b)

/-- `MultiGraph.add_edge`: sort the pair with plain Python `sorted`,
    register both endpoints, append `dest` to `src`'s adjacency list. -/
def MultiGraph.add_edge (g : MultiGraph) (src dest : String) : MultiGraph :=
  let p := plainSort2 src dest
  let g1 := (g.add_node p.1).add_node p.2
  ⟨amodify g1.data p.1 (fun l => l ++ [p.2])⟩

/-- `MultiGraph.edges`: one `(src, dest)` pair per stored adjacency
    entry. -/
def MultiGraph.edges (g : MultiGraph) : List (String × String) :=
  g.data.flatMap (fun e => e.2.map (fun d => (e.1, d)))

/-- The `Topo` object state: graph store, node metadata (a value of
    `none` models Python `None`), link metadata keyed by canonical pair,
    per-role default options, and the port table. -/
structure Topo where
  g : MultiGraph
  node_info : List (String × Option Opts)
  link_info : List ((String × String) × Opts)
  hopts : Opts
  sopts : Opts
  lopts : Opts
  lropts : Opts
  lsopts : Opts
  tpropts : Opts
  hiopts : Opts
  ports : List (String × List (String × Int))
deriving DecidableEq, Repr

/-- `Topo.__init__`. -/
def Topo.init (hopts sopts lopts lropts lsopts tpropts hiopts : Opts) : Topo :=
  ⟨⟨[]⟩, [], [], hopts, sopts, lopts, lropts, lsopts, tpropts, hiopts, []⟩

/-- A `Topo()` built with all defaults. -/
def Topo.empty : Topo := Topo.init [] [] [] [] [] [] []

/-- `if not opts and self.xopts: opts = self.xopts` — substitute the
    role's default options when the caller passed none. -/
def pickOpts (opts defaults : Opts) : Opts :=
  if opts.isEmpty && !defaults.isEmpty then defaults else opts

/-- `Topo.addNode`. -/
def Topo.addNode (t : Topo) (name : String) (opts : Opts) : Topo :=
  { t with g := t.g.add_node name, node_info := aset t.node_info name (some opts) }

/-- `Topo.addHost`. -/
def Topo.addHost (t : Topo) (name : String) (opts : Opts) : Topo :=
  t.addNode name (("isHost", PyVal.bool true) :: pickOpts opts t.hopts)

/-- `Topo.addSwitch`. -/
def Topo.addSwitch (t : Topo) (name : String) (opts : Opts) : Topo :=
  t.addNode name (("isSwitch", PyVal.bool true) :: pickOpts opts t.sopts)

/-- `Topo.addLegacySwitch`. -/
def Topo.addLegacySwitch (t : Topo) (name : String) (opts : Opts) : Topo :=
  t.addNode name (("isLegacySwitch", PyVal.bool true) :: pickOpts opts t.lsopts)

/-- `Topo.addHostInterface`. -/
def Topo.addHostInterface (t : Topo) (name : String) (opts : Opts) : Topo :=
  t.addNode name (("isHostInterface", PyVal.bool true) :: pickOpts opts t.hiopts)

/-- `Topo.addLegacyRouter`. -/
def Topo.addLegacyRouter (t : Topo) (name : String) (opts : Opts) : Topo :=
  t.addNode name (("isLegacyRouter", PyVal.bool true) :: pickOpts opts t.lropts)

/-- `Topo.addTransitPortalRouter`. -/
def Topo.addTransitPortalRouter (t : Topo) (name : String) (opts : Opts) : Topo :=
  t.addNode name (("isTransitPortalRouter", PyVal.bool true) :: pickOpts opts t.tpropts)

/-- `Topo.isSwitch`: `none` models the `KeyError` raised when the node was
    never added; otherwise the truthiness of
    `info and info.get('isSwitch', False)`. -/
def Topo.isSwitch (t : Topo) (n : String) : Option Bool :=
  match alookup t.node_info n with
  | none => none
  | some none => some false
  | some (some info) =>
      some (!info.isEmpty && ((alookup info "isSwitch").getD (PyVal.bool false)).truthy)

/-- `Topo.addPort`: create (empty) port-table entries for both endpoints,
    compute missing ports as `len(ports[x]) + base`, then write both
    directions.  `.error` carries the state at the point the `KeyError`
    from the role lookup is raised. -/
def Topo.addPort (t : Topo) (src dst : String) (sport dport : Option Int) : Except Topo Topo :=
  let ports2 := asetdefault (asetdefault t.ports src []) dst []
  let t1 := { t with ports := ports2 }
  match t1.isSwitch src with
  | none => .error t1
  | some sw1 =>
    match t1.isSwitch dst with
    | none => .error t1
    | some sw2 =>
      let srcBase : Int := if sw1 then 1 else 0
      let dstBase : Int := if sw2 then 1 else 0
      let sp := sport.getD ((((alookup ports2 src).getD []).length : Int) + srcBase)
      let dp := dport.getD ((((alookup ports2 dst).getD []).length : Int) + dstBase)
      let pA := amodify ports2 src (fun m => aset m dst sp)
      let pB := amodify pA dst (fun m => aset m src dp)
      .ok { t1 with ports := pB }

/-- `Topo.addLink`: default link options, port assignment, canonical key,
    metadata store, edge record.  `.ok` returns the key with the new
    state; `.error` carries the partially updated state. -/
def Topo.addLink (t : Topo) (node1 node2 : String) (port1 port2 : Option Int)
    (opts : Opts) : Except Topo ((String × String) × Topo) :=
  let o := pickOpts opts t.lopts
  match t.addPort node1 node2 port1 port2 with
  | .error t' => .error t'
  | .ok t1 =>
    let key := natSort2 node1 node2
    let t2 := { t1 with link_info := aset t1.link_info key o }
    let t3 := { t2 with g := t2.g.add_edge key.1 key.2 }
    .ok (key, t3)

/-- The topology state after `addLink` returns or raises (Python mutates
    the object in place, so the caller holds this state either way). -/
def Topo.addLinkS (t : Topo) (node1 node2 : String) (port1 port2 : Option Int)
    (opts : Opts) : Topo :=
  match t.addLink node1 node2 port1 port2 opts with
  | .ok (_, t') => t'
  | .error t' => t'

/-- `Topo.port`: `.ok none` models the implicit `return None` (no link
    recorded); `.error ()` models a failure of the internal `assert` that
    the reciprocal entry exists. -/
def Topo.port (t : Topo) (src dst : String) : Except Unit (Option (Int × Int)) :=
  match alookup t.ports src with
  | none => .ok none
  | some m =>
    match alookup m dst with
    | none => .ok none
    | some sp =>
      match alookup t.ports dst with
      | none => .error ()
      | some m2 =>
        match alookup m2 src with
        | none => .error ()
        | some dp => .ok (some (sp, dp))

/-- `Topo.linkInfo`: `none` models the `KeyError` on a missing canonical
    key. -/
def Topo.linkInfo (t : Topo) (src dst : String) : Option Opts :=
  alookup t.link_info (natSort2 src dst)

/-- `Topo.setlinkInfo`. -/
def Topo.setlinkInfo (t : Topo) (src dst : String) (info : Opts) : Topo :=
  { t with link_info := aset t.link_info (natSort2 src dst) info }

/-- `Topo.nodeInfo`: `none` models the `KeyError` for a never-added name;
    a stored Python `None` is replaced by the empty mapping. -/
def Topo.nodeInfo (t : Topo) (name : String) : Option Opts :=
  match alookup t.node_info name with
  | none => none
  | some none => some []
  | some (some o) => some o

/-- `Topo.setNodeInfo` (the stored value may be Python `None`). -/
def Topo.setNodeInfo (t : Topo) (name : String) (info : Option Opts) : Topo :=
  { t with node_info := aset t.node_info name info }

/-- `Topo.links(sort=True)`: canonicalize each edge by natural order, then
    sort by the natural composite key. -/
def Topo.links (t : Topo) (sort : Bool) : List (String × String) :=
  if sort then
    List.insertionSort (fun x y => natPairLt y x = false)
      (t.g.edges.map (fun e => natSort2 e.1 e.2))
  else t.g.edges

/-- Scenario state: one switch `s1`, hosts `h1,h2,h3` each linked to `s1`
    with automatic ports, in that order. -/
def starTopo : Topo :=
  ((((((Topo.empty.addSwitch "s1" []).addHost "h1" []).addLinkS "h1" "s1" none none []).addHost
    "h2" []).addLinkS "h2" "s1" none none []).addHost "h3" []).addLinkS "h3" "s1" none none []

/-- Two bare nodes `a`, `b` in an otherwise empty topology. -/
def twoNodes : Topo := (Topo.empty.addNode "a" []).addNode "b" []

/-- Scenario state for the link-metadata round trip: `"h01"` and `"h1"`
    have equal natural-sort keys, a link is recorded between them, and
    `setlinkInfo` is then called with the opposite argument order. -/
def c6state : Topo :=
  (((Topo.empty.addNode "h01" []).addNode "h1" []).addLinkS "h01" "h1" (some 0) (some 0)
    [("a", PyVal.int 1)]).setlinkInfo "h1" "h01" [("m", PyVal.int 2)]

/-- `src`'s port table has an entry for `dst`. -/
def hasPortEntry (t : Topo) (a b : String) : Bool :=
  ((alookup t.ports a).bind (fun m => alookup m b)).isSome

/-- The value `ports[a][b]` when present. -/
def portVal (t : Topo) (a b : String) : Option Int :=
  (alookup t.ports a).bind (fun m => alookup m b)

/-- An edge between `a` and `b` is present in the graph store (under the
    plain-sorted canonical pair used by `MultiGraph.add_edge`). -/
def linkRecorded (t : Topo) (a b : String) : Bool :=
  let p := plainSort2 a b
  ((alookup t.g.data p.1).getD []).contains p.2

/-- Number of stored edges whose endpoint set is `{a, b}` in a pair
    list. -/
def pairCount (l : List (String × String)) (a b : String) : Nat :=
  List.countP (fun e => (e.1 == a && e.2 == b) || (e.1 == b && e.2 == a)) l

/-- The port-table symmetry invariant of the specification. -/
def portsSym (t : Topo) : Prop :=
  ∀ a b, hasPortEntry t a b = true → hasPortEntry t b a = true

/-- Port-table entries only exist for pairs whose edge is recorded in the
    graph store. -/
def portsBackedByEdges (t : Topo) : Prop :=
  ∀ a b, hasPortEntry t a b = true → linkRecorded t a b = true

/-- States reachable through the public mutating API. -/
inductive Reachable : Topo → Prop where
  | init (h s l lr ls tp hi : Opts) : Reachable (Topo.init h s l lr ls tp hi)
  | addNode (t : Topo) (n : String) (o : Opts) : Reachable t → Reachable (t.addNode n o)
  | addHost (t : Topo) (n : String) (o : Opts) : Reachable t → Reachable (t.addHost n o)
  | addSwitch (t : Topo) (n : String) (o : Opts) : Reachable t → Reachable (t.addSwitch n o)
  | addLegacySwitch (t : Topo) (n : String) (o : Opts) : Reachable t → Reachable (t.addLegacySwitch n o)
  | addHostInterface (t : Topo) (n : String) (o : Opts) : Reachable t → Reachable (t.addHostInterface n o)
  | addLegacyRouter (t : Topo) (n : String) (o : Opts) : Reachable t → Reachable (t.addLegacyRouter n o)
  | addTransitPortalRouter (t : Topo) (n : String) (o : Opts) : Reachable t → Reachable (t.addTransitPortalRouter n o)
  | addLinkS (t : Topo) (n1 n2 : String) (p1 p2 : Option Int) (o : Opts) :
      Reachable t → Reachable (t.addLinkS n1 n2 p1 p2 o)
  | setlinkInfo (t : Topo) (a b : String) (i : Opts) : Reachable t → Reachable (t.setlinkInfo a b i)
  | setNodeInfo (t : Topo) (n : String) (i : Option Opts) : Reachable t → Reachable (t.setNodeInfo n i)

section AListLemmas

variable {κ α : Type} [DecidableEq κ]

theorem alookup_aset (l : List (κ × α)) (k : κ) (v : α) (a : κ) :
    alookup (aset l k v) a = if a = k then some v else alookup l a := by
  induction l with
  | nil =>
      by_cases ha : a = k
      · subst ha; simp [aset, alookup]
      · simp [aset, alookup, ha, Ne.symm ha]
  | cons hd tl ih =>
      obtain ⟨k', v'⟩ := hd
      by_cases h1 : k' = k
      · subst h1
        by_cases ha : a = k'
        · subst ha; simp [aset, alookup]
        · simp [aset, alookup, ha, Ne.symm ha]
      · by_cases h2 : k' = a
        · subst h2
          simp [aset, alookup, h1, Ne.symm h1]
        · simp [aset, alookup, h1, h2, ih]

theorem alookup_asetdefault (l : List (κ × α)) (k : κ) (v : α) (a : κ) :
    alookup (asetdefault l k v) a =
      if a = k then some ((alookup l k).getD v) else alookup l a := by
  induction l with
  | nil =>
      by_cases ha : a = k
      · subst ha; simp [asetdefault, alookup]
      · simp [asetdefault, alookup, ha, Ne.symm ha]
  | cons hd tl ih =>
      obtain ⟨k', v'⟩ := hd
      by_cases h1 : k' = k
      · subst h1
        by_cases ha : a = k'
        · subst ha; simp [asetdefault, alookup]
        · simp [asetdefault, alookup, ha, Ne.symm ha]
      · by_cases h2 : k' = a
        · subst h2
          simp [asetdefault, alookup, h1, Ne.symm h1]
        · simp [asetdefault, alookup, h1, h2, ih]

theorem alookup_amodify (l : List (κ × α)) (k : κ) (f : α → α) (a : κ) :
    alookup (amodify l k f) a =
      if a = k then (alookup l k).map f else alookup l a := by
  induction l with
  | nil =>
      by_cases ha : a = k
      · subst ha; simp [amodify, alookup]
      · simp [amodify, alookup, ha, Ne.symm ha]
  | cons hd tl ih =>
      obtain ⟨k', v'⟩ := hd
      by_cases h1 : k' = k
      · subst h1
        by_cases ha : a = k'
        · subst ha; simp [amodify, alookup]
        · simp [amodify, alookup, ha, Ne.symm ha]
      · by_cases h2 : k' = a
        · subst h2
          simp [amodify, alookup, h1, Ne.symm h1]
        · simp [amodify, alookup, h1, h2, ih]

end AListLemmas

theorem charToNat_inj {c d : Char} (h : c.toNat = d.toNat) : c = d := by
  obtain ⟨⟨⟨⟨v1, h1⟩⟩⟩, p1⟩ := c
  obtain ⟨⟨⟨⟨v2, h2⟩⟩⟩, p2⟩ := d
  simp only [Char.toNat, UInt32.toNat, BitVec.toNat] at h
  subst h
  rfl

theorem charListLt_asymm : ∀ {xs ys : List Char},
    charListLt xs ys = true → charListLt ys xs = false
  | [], [], h => by simp [charListLt] at h
  | [], _ :: _, _ => by simp [charListLt]
  | _ :: _, [], h => by simp [charListLt] at h
  | c :: cs, d :: ds, h => by
      simp only [charListLt] at h ⊢
      by_cases h1 : c.toNat < d.toNat
      · rw [if_neg (by omega : ¬ d.toNat < c.toNat), if_neg (by omega : ¬ d.toNat = c.toNat)]
      · by_cases h2 : c.toNat = d.toNat
        · rw [if_neg h1, if_pos h2] at h
          rw [if_neg (by omega : ¬ d.toNat < c.toNat), if_pos h2.symm]
          exact charListLt_asymm h
        · rw [if_neg h1, if_neg h2] at h
          cases h

theorem charListLt_total : ∀ {xs ys : List Char},
    xs ≠ ys → charListLt xs ys = true ∨ charListLt ys xs = true
  | [], [], h => absurd rfl h
  | [], _ :: _, _ => Or.inl (by simp [charListLt])
  | _ :: _, [], _ => Or.inr (by simp [charListLt])
  | c :: cs, d :: ds, h => by
      by_cases h2 : c = d
      · subst h2
        have hne : cs ≠ ds := fun hh => h (by rw [hh])
        rcases charListLt_total hne with h' | h'
        · exact Or.inl (by simp [charListLt, h'])
        · exact Or.inr (by simp [charListLt, h'])
      · rcases Nat.lt_trichotomy c.toNat d.toNat with h1 | h1 | h1
        · exact Or.inl (by simp [charListLt, h1])
        · exact absurd (charToNat_inj h1) h2
        · exact Or.inr (by simp [charListLt, h1])

theorem charListLt_irrefl : ∀ (xs : List Char), charListLt xs xs = false
  | [] => rfl
  | c :: cs => by simp [charListLt, charListLt_irrefl cs]

theorem pyStrLt_asymm {a b : String} (h : pyStrLt a b = true) : pyStrLt b a = false :=
  charListLt_asymm h

theorem pyStrLt_total {a b : String} (h : a ≠ b) :
    pyStrLt a b = true ∨ pyStrLt b a = true :=
  charListLt_total (fun hd => h (String.ext hd))

theorem plainSort2_comm (a b : String) : plainSort2 a b = plainSort2 b a := by
  by_cases hab : a = b
  · subst hab; rfl
  · rcases pyStrLt_total hab with h | h
    · simp [plainSort2, h, pyStrLt_asymm h]
    · simp [plainSort2, h, pyStrLt_asymm h]

theorem plainSort2_natSort2 (a b : String) :
    plainSort2 (natSort2 a b).1 (natSort2 a b).2 = plainSort2 a b := by
  unfold natSort2
  by_cases h : natLt b a = true
  · simp [h, plainSort2_comm]
  · simp [h]

theorem ltTok_irrefl (t : NTok) : NTok.ltTok t t = false := by
  cases t with
  | str s => exact charListLt_irrefl s.data
  | num n => simp [NTok.ltTok]

theorem ltTok_asymm {a b : NTok} (h : NTok.ltTok a b = true) : NTok.ltTok b a = false := by
  cases a with
  | str s =>
      cases b with
      | str s' => exact charListLt_asymm h
      | num n => simp [NTok.ltTok] at h
  | num n =>
      cases b with
      | str s' => simp [NTok.ltTok]
      | num n' =>
          simp only [NTok.ltTok, decide_eq_true_eq] at h
          simp only [NTok.ltTok, decide_eq_false_iff_not]
          omega

theorem ltTok_total {a b : NTok} (h : a ≠ b) :
    NTok.ltTok a b = true ∨ NTok.ltTok b a = true := by
  cases a with
  | str s =>
      cases b with
      | str s' =>
          have hs : s ≠ s' := by intro hss; exact h (by rw [hss])
          rcases pyStrLt_total hs with h' | h' <;> simp [NTok.ltTok, h']
      | num n' => exact Or.inr (by simp [NTok.ltTok])
  | num n =>
      cases b with
      | str s' => exact Or.inl (by simp [NTok.ltTok])
      | num n' =>
          have hn : n ≠ n' := by intro hnn; exact h (by rw [hnn])
          rcases Nat.lt_or_ge n n' with h' | h'
          · exact Or.inl (by simp [NTok.ltTok, h'])
          · exact Or.inr (by simp [NTok.ltTok]; omega)

theorem ltKey_asymm : ∀ {k1 k2 : List NTok}, ltKey k1 k2 = true → ltKey k2 k1 = false
  | [], [], h => by simp [ltKey] at h
  | [], _ :: _, _ => by simp [ltKey]
  | _ :: _, [], h => by simp [ltKey] at h
  | a :: as, b :: bs, h => by
      by_cases hab : NTok.ltTok a b = true
      · by_cases hba : b = a
        · subst hba; simp [ltTok_irrefl] at hab
        · simp [ltKey, ltTok_asymm hab, hba]
      · by_cases heq : a = b
        · subst heq
          simp only [ltKey, hab, ltTok_irrefl] at h ⊢
          simp only [if_true, if_false] at h ⊢
          simp at h
          simp [ltKey_asymm h]
        · simp [ltKey, hab, heq] at h

theorem ltKey_total : ∀ {k1 k2 : List NTok}, k1 ≠ k2 → ltKey k1 k2 = true ∨ ltKey k2 k1 = true
  | [], [], h => absurd rfl h
  | [], _ :: _, _ => Or.inl (by simp [ltKey])
  | _ :: _, [], _ => Or.inr (by simp [ltKey])
  | a :: as, b :: bs, h => by
      by_cases heq : a = b
      · subst heq
        have hne : as ≠ bs := by intro hh; exact h (by rw [hh])
        rcases ltKey_total hne with h' | h'
        · exact Or.inl (by simp [ltKey, ltTok_irrefl, h'])
        · exact Or.inr (by simp [ltKey, ltTok_irrefl, h'])
      · rcases ltTok_total heq with h' | h'
        · exact Or.inl (by simp [ltKey, h'])
        · exact Or.inr (by simp [ltKey, h'])

theorem natSort2_comm {a b : String} (h : natKey a ≠ natKey b ∨ a = b) :
    natSort2 a b = natSort2 b a := by
  rcases h with h | h
  · rcases ltKey_total h with h' | h'
    · simp [natSort2, natLt, h', ltKey_asymm h']
    · simp [natSort2, natLt, h', ltKey_asymm h']
  · subst h; rfl

section SdLemmas

variable {κ α : Type} [DecidableEq κ]

theorem alookup_sd2_first (l : List (κ × α)) (k1 k2 : κ) (v : α) :
    alookup (asetdefault (asetdefault l k1 v) k2 v) k1 = some ((alookup l k1).getD v) := by
  by_cases h : k1 = k2
  · subst h; simp [alookup_asetdefault]
  · simp [alookup_asetdefault, h]

theorem alookup_sd2_second (l : List (κ × α)) (k1 k2 : κ) (v : α) :
    alookup (asetdefault (asetdefault l k1 v) k2 v) k2 = some ((alookup l k2).getD v) := by
  by_cases h : k2 = k1
  · subst h; simp [alookup_asetdefault]
  · simp [alookup_asetdefault, h]

theorem alookup_sd2_other (l : List (κ × α)) (k1 k2 a : κ) (v : α)
    (h1 : a ≠ k1) (h2 : a ≠ k2) :
    alookup (asetdefault (asetdefault l k1 v) k2 v) a = alookup l a := by
  simp [alookup_asetdefault, h1, h2]

end SdLemmas

/-- The port table produced by a successful `addPort` call (the body of
    `Topo.addPort` after the role lookups succeed with `sw1`, `sw2`). -/
def newPorts (t : Topo) (src dst : String) (sport dport : Option Int) (sw1 sw2 : Bool) :
    List (String × List (String × Int)) :=
  let ports2 := asetdefault (asetdefault t.ports src []) dst []
  let sp := sport.getD ((((alookup ports2 src).getD []).length : Int) + (if sw1 then 1 else 0))
  let dp := dport.getD ((((alookup ports2 dst).getD []).length : Int) + (if sw2 then 1 else 0))
  amodify (amodify ports2 src (fun m => aset m dst sp)) dst (fun m => aset m src dp)

theorem isSwitch_set_ports (t : Topo) (P : List (String × List (String × Int))) (n : String) :
    ({ t with ports := P } : Topo).isSwitch n = t.isSwitch n := rfl

theorem addLink_ok_eq (t : Topo) (n1 n2 : String) (p1 p2 : Option Int) (o : Opts)
    (sw1 sw2 : Bool) (h1 : t.isSwitch n1 = some sw1) (h2 : t.isSwitch n2 = some sw2) :
    t.addLink n1 n2 p1 p2 o =
      .ok (natSort2 n1 n2,
        { t with
            g := t.g.add_edge (natSort2 n1 n2).1 (natSort2 n1 n2).2,
            link_info := aset t.link_info (natSort2 n1 n2) (pickOpts o t.lopts),
            ports := newPorts t n1 n2 p1 p2 sw1 sw2 }) := by
  simp only [Topo.addLink, Topo.addPort, newPorts]
  rw [isSwitch_set_ports, h1, isSwitch_set_ports, h2]

theorem isSwitch_none_of_lookup_none {t : Topo} {n : String}
    (h : alookup t.node_info n = none) : t.isSwitch n = none := by
  simp [Topo.isSwitch, h]

theorem isSwitch_isSome_of_lookup {t : Topo} {n : String} {v : Option Opts}
    (h : alookup t.node_info n = some v) : ∃ sw, t.isSwitch n = some sw := by
  cases v <;> simp [Topo.isSwitch, h]

theorem addLink_error_eq (t : Topo) (n1 n2 : String) (p1 p2 : Option Int) (o : Opts)
    (h : alookup t.node_info n1 = none ∨ alookup t.node_info n2 = none) :
    t.addLink n1 n2 p1 p2 o =
      .error { t with ports := asetdefault (asetdefault t.ports n1 []) n2 [] } := by
  simp only [Topo.addLink, Topo.addPort]
  rcases h with h | h
  · rw [isSwitch_set_ports, isSwitch_none_of_lookup_none h]
  · cases hl : alookup t.node_info n1 with
    | none => rw [isSwitch_set_ports, isSwitch_none_of_lookup_none hl]
    | some v =>
        obtain ⟨sw, hsw⟩ := isSwitch_isSome_of_lookup hl
        rw [isSwitch_set_ports, hsw, isSwitch_set_ports, isSwitch_none_of_lookup_none h]

theorem addLink_ok_inv {t : Topo} {n1 n2 : String} {p1 p2 : Option Int} {o : Opts}
    {k : String × String} {t' : Topo}
    (heq : t.addLink n1 n2 p1 p2 o = .ok (k, t')) :
    ∃ sw1 sw2, t.isSwitch n1 = some sw1 ∧ t.isSwitch n2 = some sw2 ∧
      k = natSort2 n1 n2 ∧
      t' = { t with
              g := t.g.add_edge (natSort2 n1 n2).1 (natSort2 n1 n2).2,
              link_info := aset t.link_info (natSort2 n1 n2) (pickOpts o t.lopts),
              ports := newPorts t n1 n2 p1 p2 sw1 sw2 } := by
  cases hl1 : alookup t.node_info n1 with
  | none => rw [addLink_error_eq t n1 n2 p1 p2 o (Or.inl hl1)] at heq; cases heq
  | some v1 =>
      cases hl2 : alookup t.node_info n2 with
      | none => rw [addLink_error_eq t n1 n2 p1 p2 o (Or.inr hl2)] at heq; cases heq
      | some v2 =>
          obtain ⟨sw1, hsw1⟩ := isSwitch_isSome_of_lookup hl1
          obtain ⟨sw2, hsw2⟩ := isSwitch_isSome_of_lookup hl2
          rw [addLink_ok_eq t n1 n2 p1 p2 o sw1 sw2 hsw1 hsw2] at heq
          injection heq with h'
          injection h' with hk ht
          exact ⟨sw1, sw2, hsw1, hsw2, hk.symm, ht.symm⟩

theorem portVal_newPorts (t : Topo) (src dst : String) (p1 p2 : Option Int)
    (sw1 sw2 : Bool) (a b : String) :
    portVal { t with ports := newPorts t src dst p1 p2 sw1 sw2 } a b =
      if a = dst ∧ b = src then
        some (p2.getD ((((alookup t.ports dst).getD []).length : Int) + (if sw2 then 1 else 0)))
      else if a = src ∧ b = dst then
        some (p1.getD ((((alookup t.ports src).getD []).length : Int) + (if sw1 then 1 else 0)))
      else portVal t a b := by
  unfold portVal newPorts
  by_cases had : a = dst
  · subst had
    by_cases hds : a = src
    · subst hds
      cases hm : alookup t.ports a with
      | none =>
          by_cases hb : b = a
          · simp [alookup_amodify, alookup_sd2_first, hm, alookup_aset, hb, alookup]
          · simp [alookup_amodify, alookup_sd2_first, hm, alookup_aset, hb, alookup,
              Ne.symm hb]
      | some m =>
          by_cases hb : b = a <;>
            simp [alookup_amodify, alookup_sd2_first, hm, alookup_aset, hb]
    · cases hm : alookup t.ports a with
      | none =>
          by_cases hb : b = src
          · simp [alookup_amodify, alookup_sd2_second, hds, hm, alookup_aset, hb, alookup]
          · simp [alookup_amodify, alookup_sd2_second, hds, hm, alookup_aset, hb, alookup,
              Ne.symm hb]
      | some m =>
          by_cases hb : b = src <;>
            simp [alookup_amodify, alookup_sd2_second, hds, hm, alookup_aset, hb]
  · by_cases has : a = src
    · subst has
      cases hm : alookup t.ports a with
      | none =>
          by_cases hb : b = dst
          · simp [alookup_amodify, alookup_sd2_first, had, hm, alookup_aset, hb, alookup,
              Ne.symm had]
          · simp [alookup_amodify, alookup_sd2_first, had, hm, alookup_aset, hb, alookup,
              Ne.symm had, Ne.symm hb]
      | some m =>
          by_cases hb : b = dst <;>
            simp [alookup_amodify, alookup_sd2_first, had, hm, alookup_aset, hb, Ne.symm had]
    · simp [alookup_amodify, had, has, alookup_sd2_other t.ports src dst a [] has had]

theorem hasPortEntry_eq_portVal (t : Topo) (a b : String) :
    hasPortEntry t a b = (portVal t a b).isSome := rfl

theorem hasPortEntry_newPorts_iff (t : Topo) (src dst : String) (p1 p2 : Option Int)
    (sw1 sw2 : Bool) (a b : String) :
    hasPortEntry { t with ports := newPorts t src dst p1 p2 sw1 sw2 } a b = true ↔
      ((a = dst ∧ b = src) ∨ (a = src ∧ b = dst) ∨ hasPortEntry t a b = true) := by
  rw [hasPortEntry_eq_portVal, portVal_newPorts]
  by_cases h1 : a = dst ∧ b = src
  · rw [if_pos h1]; simp [h1]
  · by_cases h2 : a = src ∧ b = dst
    · rw [if_neg h1, if_pos h2]; simp [h2]
    · rw [if_neg h1, if_neg h2]; simp [h1, h2, hasPortEntry_eq_portVal]

theorem hasPortEntry_sd2 (t : Topo) (n1 n2 a b : String) :
    hasPortEntry { t with ports := asetdefault (asetdefault t.ports n1 []) n2 [] } a b =
      hasPortEntry t a b := by
  unfold hasPortEntry
  by_cases h1 : a = n1
  · subst h1
    cases hm : alookup t.ports a with
    | none => simp [alookup_sd2_first, hm, alookup]
    | some m => simp [alookup_sd2_first, hm]
  · by_cases h2 : a = n2
    · subst h2
      cases hm : alookup t.ports a with
      | none => simp [alookup_sd2_second, hm, alookup]
      | some m => simp [alookup_sd2_second, hm]
    · simp [alookup_sd2_other t.ports n1 n2 a [] h1 h2]

theorem getD_asetdefault_nil {κ β : Type} [DecidableEq κ] (l : List (κ × List β)) (n k : κ) :
    (alookup (asetdefault l n []) k).getD [] = (alookup l k).getD [] := by
  by_cases h : k = n
  · subst h; simp [alookup_asetdefault]
  · simp [alookup_asetdefault, h]

theorem adj_add_node (g : MultiGraph) (n k : String) :
    (alookup (g.add_node n).data k).getD [] = (alookup g.data k).getD [] :=
  getD_asetdefault_nil g.data n k

theorem adj_add_edge (g : MultiGraph) (u v k : String) :
    (alookup (g.add_edge u v).data k).getD [] =
      if k = (plainSort2 u v).1 then
        ((alookup g.data k).getD []) ++ [(plainSort2 u v).2]
      else (alookup g.data k).getD [] := by
  unfold MultiGraph.add_edge MultiGraph.add_node
  by_cases h : k = (plainSort2 u v).1
  · subst h
    simp [alookup_amodify, alookup_sd2_first]
  · simp [alookup_amodify, h, getD_asetdefault_nil]

theorem set_g_g (t : Topo) (G : MultiGraph) : ({ t with g := G } : Topo).g = G := rfl

theorem linkRecorded_add_node (t : Topo) (n x y : String) :
    linkRecorded { t with g := t.g.add_node n } x y = linkRecorded t x y := by
  simp only [linkRecorded, set_g_g]
  rw [adj_add_node]

theorem linkRecorded_add_edge_self (t : Topo) (u v : String) :
    linkRecorded { t with g := t.g.add_edge u v } u v = true := by
  simp only [linkRecorded, set_g_g]
  rw [adj_add_edge]
  simp [List.contains]

theorem linkRecorded_mono_add_edge (t : Topo) (u v x y : String)
    (h : linkRecorded t x y = true) :
    linkRecorded { t with g := t.g.add_edge u v } x y = true := by
  simp only [linkRecorded, set_g_g] at h ⊢
  rw [adj_add_edge]
  by_cases hk : (plainSort2 x y).1 = (plainSort2 u v).1
  · rw [if_pos hk]
    simp only [List.contains, List.elem_eq_mem, decide_eq_true_eq] at h ⊢
    exact List.mem_append.mpr (Or.inl h)
  · rw [if_neg hk]
    exact h

theorem linkRecorded_comm (t : Topo) (a b : String) :
    linkRecorded t a b = linkRecorded t b a := by
  unfold linkRecorded
  rw [plainSort2_comm]

theorem linkRecorded_eq_of_plainSort2 (t : Topo) {x y x' y' : String}
    (h : plainSort2 x y = plainSort2 x' y') :
    linkRecorded t x y = linkRecorded t x' y' := by
  unfold linkRecorded
  rw [h]

theorem addLinkS_error_eq (t : Topo) (n1 n2 : String) (p1 p2 : Option Int) (o : Opts)
    (h : alookup t.node_info n1 = none ∨ alookup t.node_info n2 = none) :
    t.addLinkS n1 n2 p1 p2 o =
      { t with ports := asetdefault (asetdefault t.ports n1 []) n2 [] } := by
  unfold Topo.addLinkS
  rw [addLink_error_eq t n1 n2 p1 p2 o h]

theorem addLinkS_ok_eq (t : Topo) (n1 n2 : String) (p1 p2 : Option Int) (o : Opts)
    (sw1 sw2 : Bool) (h1 : t.isSwitch n1 = some sw1) (h2 : t.isSwitch n2 = some sw2) :
    t.addLinkS n1 n2 p1 p2 o =
      { t with
          g := t.g.add_edge (natSort2 n1 n2).1 (natSort2 n1 n2).2,
          link_info := aset t.link_info (natSort2 n1 n2) (pickOpts o t.lopts),
          ports := newPorts t n1 n2 p1 p2 sw1 sw2 } := by
  unfold Topo.addLinkS
  rw [addLink_ok_eq t n1 n2 p1 p2 o sw1 sw2 h1 h2]

theorem reachable_inv {t : Topo} (h : Reachable t) :
    portsSym t ∧ portsBackedByEdges t := by
  induction h with
  | init h s l lr ls tp hi =>
      constructor <;> intro a b hab <;> simp [hasPortEntry, Topo.init, alookup] at hab
  | addNode t n o _ ih =>
      obtain ⟨hs, hb⟩ := ih
      constructor
      · intro a b hab
        exact hs a b hab
      · intro a b hab
        have h' : linkRecorded { t with g := t.g.add_node n } a b = true → True := fun _ => trivial
        have : linkRecorded { t with g := t.g.add_node n } a b = linkRecorded t a b :=
          linkRecorded_add_node t n a b
        exact this ▸ hb a b hab
  | addHost t n o _ ih =>
      obtain ⟨hs, hb⟩ := ih
      exact ⟨fun a b hab => hs a b hab,
        fun a b hab => (linkRecorded_add_node t _ a b) ▸ hb a b hab⟩
  | addSwitch t n o _ ih =>
      obtain ⟨hs, hb⟩ := ih
      exact ⟨fun a b hab => hs a b hab,
        fun a b hab => (linkRecorded_add_node t _ a b) ▸ hb a b hab⟩
  | addLegacySwitch t n o _ ih =>
      obtain ⟨hs, hb⟩ := ih
      exact ⟨fun a b hab => hs a b hab,
        fun a b hab => (linkRecorded_add_node t _ a b) ▸ hb a b hab⟩
  | addHostInterface t n o _ ih =>
      obtain ⟨hs, hb⟩ := ih
      exact ⟨fun a b hab => hs a b hab,
        fun a b hab => (linkRecorded_add_node t _ a b) ▸ hb a b hab⟩
  | addLegacyRouter t n o _ ih =>
      obtain ⟨hs, hb⟩ := ih
      exact ⟨fun a b hab => hs a b hab,
        fun a b hab => (linkRecorded_add_node t _ a b) ▸ hb a b hab⟩
  | addTransitPortalRouter t n o _ ih =>
      obtain ⟨hs, hb⟩ := ih
      exact ⟨fun a b hab => hs a b hab,
        fun a b hab => (linkRecorded_add_node t _ a b) ▸ hb a b hab⟩
  | setlinkInfo t a' b' i _ ih =>
      obtain ⟨hs, hb⟩ := ih
      exact ⟨fun a b hab => hs a b hab, fun a b hab => hb a b hab⟩
  | setNodeInfo t n i _ ih =>
      obtain ⟨hs, hb⟩ := ih
      exact ⟨fun a b hab => hs a b hab, fun a b hab => hb a b hab⟩
  | addLinkS t n1 n2 p1 p2 o _ ih =>
      obtain ⟨hs, hb⟩ := ih
      cases hl1 : alookup t.node_info n1 with
      | none =>
          rw [addLinkS_error_eq t n1 n2 p1 p2 o (Or.inl hl1)]
          constructor
          · intro a b hab
            rw [hasPortEntry_sd2] at hab ⊢
            exact hs a b hab
          · intro a b hab
            rw [hasPortEntry_sd2] at hab
            exact hb a b hab
      | some v1 =>
          cases hl2 : alookup t.node_info n2 with
          | none =>
              rw [addLinkS_error_eq t n1 n2 p1 p2 o (Or.inr hl2)]
              constructor
              · intro a b hab
                rw [hasPortEntry_sd2] at hab ⊢
                exact hs a b hab
              · intro a b hab
                rw [hasPortEntry_sd2] at hab
                exact hb a b hab
          | some v2 =>
              obtain ⟨sw1, hsw1⟩ := isSwitch_isSome_of_lookup hl1
              obtain ⟨sw2, hsw2⟩ := isSwitch_isSome_of_lookup hl2
              rw [addLinkS_ok_eq t n1 n2 p1 p2 o sw1 sw2 hsw1 hsw2]
              constructor
              · intro a b hab
                have hab' := (hasPortEntry_newPorts_iff t n1 n2 p1 p2 sw1 sw2 a b).mp hab
                apply (hasPortEntry_newPorts_iff t n1 n2 p1 p2 sw1 sw2 b a).mpr
                rcases hab' with ⟨e1, e2⟩ | ⟨e1, e2⟩ | h'
                · exact Or.inr (Or.inl ⟨e2, e1⟩)
                · exact Or.inl ⟨e2, e1⟩
                · exact Or.inr (Or.inr (hs a b h'))
              · intro a b hab
                have hab' := (hasPortEntry_newPorts_iff t n1 n2 p1 p2 sw1 sw2 a b).mp hab
                have hself : linkRecorded
                    { t with
                        g := t.g.add_edge (natSort2 n1 n2).1 (natSort2 n1 n2).2,
                        link_info := aset t.link_info (natSort2 n1 n2) (pickOpts o t.lopts),
                        ports := newPorts t n1 n2 p1 p2 sw1 sw2 } n1 n2 = true := by
                  have e := linkRecorded_eq_of_plainSort2
                    (t := { t with
                        g := t.g.add_edge (natSort2 n1 n2).1 (natSort2 n1 n2).2,
                        link_info := aset t.link_info (natSort2 n1 n2) (pickOpts o t.lopts),
                        ports := newPorts t n1 n2 p1 p2 sw1 sw2 })
                    (plainSort2_natSort2 n1 n2).symm
                  rw [e]
                  exact linkRecorded_add_edge_self t (natSort2 n1 n2).1 (natSort2 n1 n2).2
                rcases hab' with ⟨e1, e2⟩ | ⟨e1, e2⟩ | h'
                · subst e1; subst e2
                  rw [linkRecorded_comm]
                  exact hself
                · subst e1; subst e2
                  exact hself
                · exact linkRecorded_mono_add_edge t _ _ a b (hb a b h')

theorem port_eq_of_portVal {t : Topo} {src dst : String} {sp dp : Int}
    (h1 : portVal t src dst = some sp) (h2 : portVal t dst src = some dp) :
    t.port src dst = .ok (some (sp, dp)) := by
  unfold portVal at h1 h2
  unfold Topo.port
  cases hm : alookup t.ports src with
  | none => rw [hm] at h1; simp at h1
  | some m =>
      rw [hm] at h1
      simp at h1
      cases hm2 : alookup t.ports dst with
      | none => rw [hm2] at h2; simp at h2
      | some m2 =>
          rw [hm2] at h2
          simp at h2
          simp [h1, h2]

theorem hasPortEntry_true_iff (t : Topo) (a b : String) :
    hasPortEntry t a b = true ↔
      ∃ m p, alookup t.ports a = some m ∧ alookup m b = some p := by
  unfold hasPortEntry
  cases hm : alookup t.ports a with
  | none => simp
  | some m => simp [Option.isSome_iff_exists]

theorem edges_cons (k : String) (ds : List String) (rest : List (String × List String)) :
    MultiGraph.edges ⟨(k, ds) :: rest⟩ = ds.map (fun d => (k, d)) ++ MultiGraph.edges ⟨rest⟩ := by
  simp [MultiGraph.edges]

theorem countP_edges_asetdefault (d : List (String × List String)) (n : String)
    (p : String × String → Bool) :
    List.countP p (MultiGraph.edges ⟨asetdefault d n []⟩) =
      List.countP p (MultiGraph.edges ⟨d⟩) := by
  induction d with
  | nil => simp [asetdefault, MultiGraph.edges]
  | cons hd rest ih =>
      obtain ⟨k, ds⟩ := hd
      by_cases h : k = n
      · subst h
        rw [show asetdefault ((k, ds) :: rest) k ([] : List String) = (k, ds) :: rest from by
          simp [asetdefault]]
      · simp only [asetdefault, h, if_false]
        rw [edges_cons, edges_cons, List.countP_append, List.countP_append, ih]

theorem countP_edges_amodify_append (d : List (String × List String)) (u v : String)
    (p : String × String → Bool) (h : (alookup d u).isSome = true) :
    List.countP p (MultiGraph.edges ⟨amodify d u (fun l => l ++ [v])⟩) =
      List.countP p (MultiGraph.edges ⟨d⟩) + (if p (u, v) then 1 else 0) := by
  induction d with
  | nil => simp [alookup] at h
  | cons hd rest ih =>
      obtain ⟨k, ds⟩ := hd
      by_cases hk : k = u
      · subst hk
        rw [show amodify ((k, ds) :: rest) k (fun l => l ++ [v]) = (k, ds ++ [v]) :: rest from by
          simp [amodify]]
        rw [edges_cons, edges_cons, List.countP_append, List.countP_append]
        rw [List.map_append, List.countP_append]
        simp [List.countP_singleton]
        omega
      · simp only [amodify, hk, if_false]
        rw [edges_cons, edges_cons, List.countP_append, List.countP_append]
        rw [ih (by simpa [alookup, hk] using h)]
        omega

theorem countP_edges_add_edge (g : MultiGraph) (u v : String) (p : String × String → Bool) :
    List.countP p (g.add_edge u v).edges =
      List.countP p g.edges + (if p (plainSort2 u v) then 1 else 0) := by
  unfold MultiGraph.add_edge MultiGraph.add_node
  have hpres : (alookup (asetdefault (asetdefault g.data (plainSort2 u v).1 [])
      (plainSort2 u v).2 []) (plainSort2 u v).1).isSome = true := by
    rw [alookup_sd2_first]; rfl
  rw [countP_edges_amodify_append _ _ _ _ hpres]
  rw [countP_edges_asetdefault, countP_edges_asetdefault]

theorem pairCount_links_true (t : Topo) (a b : String) :
    pairCount (t.links true) a b =
      List.countP (fun e => (e.1 == a && e.2 == b) || (e.1 == b && e.2 == a)) t.g.edges := by
  unfold Topo.links pairCount
  rw [if_pos rfl]
  rw [(List.perm_insertionSort _ _).countP_eq]
  rw [List.countP_map]
  apply List.countP_congr
  intro e _
  obtain ⟨x, y⟩ := e
  show (((natSort2 x y).1 == a && (natSort2 x y).2 == b) ||
      ((natSort2 x y).1 == b && (natSort2 x y).2 == a)) = true ↔
    ((x == a && y == b) || (x == b && y == a)) = true
  unfold natSort2
  split
  · rw [Bool.and_comm (y == a) (x == b), Bool.and_comm (y == b) (x == a), Bool.or_comm]
  · rfl

theorem matchPair_plainSort2 (a b : String) :
    (((plainSort2 a b).1 == a && (plainSort2 a b).2 == b) ||
      ((plainSort2 a b).1 == b && (plainSort2 a b).2 == a)) = true := by
  unfold plainSort2
  split <;> simp

theorem plainSort2_fst_ne_snd {a b : String} (h : a ≠ b) :
    (plainSort2 a b).1 ≠ (plainSort2 a b).2 := by
  unfold plainSort2
  split
  · exact Ne.symm h
  · exact h

theorem pickOpts_of_ne_nil {o : Opts} (d : Opts) (h : o ≠ []) : pickOpts o d = o := by
  unfold pickOpts
  simp [List.isEmpty_iff, h]

/-- C2: the claim says `add_edge` canonicalizes by the natural
    (alphanumeric-aware) order, so an edge between "h2" and "h10" would be
    stored with src "h2" (and "h10" appended to "h2"'s adjacency list).
    In fact plain lexicographic `sorted` puts "h10" first: "h2"'s
    adjacency list stays empty and the edge is stored under "h10". -/
theorem claim_C2_counterexample :
    natLt "h2" "h10" = true ∧
    alookup (MultiGraph.add_edge ⟨[]⟩ "h2" "h10").data "h2" = some [] ∧
    alookup (MultiGraph.add_edge ⟨[]⟩ "h2" "h10").data "h10" = some ["h2"] := by
  decide

/-- C2 (amended): `add_edge(a, b)` canonicalizes the pair by plain
    lexicographic (code-point) string order — src = min, dest = max under
    plain `sorted`, not natural sort — registers both endpoints if new,
    and appends dest only to src's adjacency list. -/
theorem claim_C2_add_edge_amended (g : MultiGraph) (a b : String) (hne : a ≠ b) :
    alookup (g.add_edge a b).data (plainSort2 a b).1 =
      some (((alookup g.data (plainSort2 a b).1).getD []) ++ [(plainSort2 a b).2]) ∧
    alookup (g.add_edge a b).data (plainSort2 a b).2 =
      some ((alookup g.data (plainSort2 a b).2).getD []) ∧
    (∀ c, c ≠ (plainSort2 a b).1 → c ≠ (plainSort2 a b).2 →
      alookup (g.add_edge a b).data c = alookup g.data c) := by
  have hne' := plainSort2_fst_ne_snd hne
  unfold MultiGraph.add_edge MultiGraph.add_node
  refine ⟨?_, ?_, ?_⟩
  · rw [alookup_amodify, if_pos rfl, alookup_sd2_first]
    rfl
  · rw [alookup_amodify, if_neg (Ne.symm hne'), alookup_sd2_second]
  · intro c hc1 hc2
    rw [alookup_amodify, if_neg hc1, alookup_sd2_other _ _ _ _ _ hc1 hc2]

/-- C2 witness: the amended statement evaluated on the edge ("h2", "h10")
    over the empty graph. -/
theorem claim_C2_witness :
    alookup (MultiGraph.add_edge ⟨[]⟩ "h2" "h10").data (plainSort2 "h2" "h10").1 =
      some (((alookup ([] : List (String × List String)) (plainSort2 "h2" "h10").1).getD [])
        ++ [(plainSort2 "h2" "h10").2]) ∧
    alookup (MultiGraph.add_edge ⟨[]⟩ "h2" "h10").data (plainSort2 "h2" "h10").2 =
      some ((alookup ([] : List (String × List String)) (plainSort2 "h2" "h10").2).getD []) ∧
    (∀ c, c ≠ (plainSort2 "h2" "h10").1 → c ≠ (plainSort2 "h2" "h10").2 →
      alookup (MultiGraph.add_edge ⟨[]⟩ "h2" "h10").data c =
        alookup ([] : List (String × List String)) c) :=
  claim_C2_add_edge_amended ⟨[]⟩ "h2" "h10" (by decide)

/-- C6: the claim says the round trip holds for every pair of names and
    either argument order.  With names "h01" and "h1" — distinct strings
    with equal natural-sort keys — the canonical key depends on argument
    order: after `setlinkInfo "h1" "h01" m`, `linkInfo "h01" "h1"` still
    returns the metadata stored when the link was added, not `m`. -/
theorem claim_C6_counterexample :
    c6state.linkInfo "h01" "h1" = some [("a", PyVal.int 1)] ∧
    c6state.linkInfo "h01" "h1" ≠ some [("m", PyVal.int 2)] ∧
    c6state.linkInfo "h1" "h01" = some [("m", PyVal.int 2)] := by
  decide

/-- C6 (amended): for names whose natural-sort keys differ (or equal
    names), `set_link_info(a,b,m)` followed by `link_info(a,b)` or
    `link_info(b,a)` returns exactly `m`, since both calls then
    canonicalize to the same key; names with equal natural keys (such as
    "h1" vs "h01") are excluded. -/
theorem claim_C6_roundtrip_amended (t : Topo) (a b : String) (m : Opts)
    (h : natKey a ≠ natKey b ∨ a = b) :
    (t.setlinkInfo a b m).linkInfo a b = some m ∧
    (t.setlinkInfo a b m).linkInfo b a = some m := by
  have hcomm := natSort2_comm h
  unfold Topo.setlinkInfo Topo.linkInfo
  constructor
  · simp [alookup_aset]
  · rw [← hcomm]
    simp [alookup_aset]

/-- C6 witness: the amended round trip evaluated on nodes "h1", "h2". -/
theorem claim_C6_witness :
    (twoNodes.setlinkInfo "h1" "h2" [("m", PyVal.int 2)]).linkInfo "h1" "h2" =
      some [("m", PyVal.int 2)] ∧
    (twoNodes.setlinkInfo "h1" "h2" [("m", PyVal.int 2)]).linkInfo "h2" "h1" =
      some [("m", PyVal.int 2)] :=
  claim_C6_roundtrip_amended twoNodes "h1" "h2" [("m", PyVal.int 2)] (Or.inl (by decide))

/-- C8: the claim says `node_info(name)` returns an empty mapping when the
    node's metadata is absent, rather than failing.  For a name that was
    never added, the lookup `self.node_info[name]` raises `KeyError`
    (modelled as `none`), so the empty mapping is not returned. -/
theorem claim_C8_counterexample :
    Topo.empty.nodeInfo "x" = none ∧ Topo.empty.nodeInfo "x" ≠ some [] := by
  decide

/-- C8 (amended): `node_info(name)` fails with a lookup error when the
    node was never added; it returns an empty mapping when the stored
    metadata is null, and otherwise the stored metadata mapping;
    `set_node_info(name, info)` replaces the node's metadata with
    `info`. -/
theorem claim_C8_node_info_amended (t : Topo) (n : String) (info : Option Opts) :
    (alookup t.node_info n = none → t.nodeInfo n = none) ∧
    (alookup t.node_info n = some none → t.nodeInfo n = some []) ∧
    (∀ o : Opts, alookup t.node_info n = some (some o) → t.nodeInfo n = some o) ∧
    alookup (t.setNodeInfo n info).node_info n = some info := by
  refine ⟨?_, ?_, ?_, ?_⟩
  · intro h; simp [Topo.nodeInfo, h]
  · intro h; simp [Topo.nodeInfo, h]
  · intro o h; simp [Topo.nodeInfo, h]
  · simp [Topo.setNodeInfo, alookup_aset]

/-- C8 witness: the amended behaviour evaluated on node "a" of
    `twoNodes` (stored metadata `some []`) and a replacement by null. -/
theorem claim_C8_witness :
    (alookup twoNodes.node_info "a" = none → twoNodes.nodeInfo "a" = none) ∧
    (alookup twoNodes.node_info "a" = some none → twoNodes.nodeInfo "a" = some []) ∧
    (∀ o : Opts, alookup twoNodes.node_info "a" = some (some o) →
      twoNodes.nodeInfo "a" = some o) ∧
    alookup (twoNodes.setNodeInfo "a" none).node_info "a" = some none :=
  claim_C8_node_info_amended twoNodes "a" none

/-- C9: calling `add_link` with an endpoint that was never added raises a
    lookup failure from the role lookup inside port assignment and leaves
    the topology inconsistent: (empty) port-table entries have been
    created for the endpoints by `setdefault`, while the edge is not
    recorded in the store, no link metadata is stored, and no key is
    returned. -/
theorem claim_C9_partial_failure (t : Topo) (n1 n2 : String) (p1 p2 : Option Int) (o : Opts)
    (h : alookup t.node_info n1 = none ∨ alookup t.node_info n2 = none) :
    ∃ t' : Topo, t.addLink n1 n2 p1 p2 o = .error t' ∧
      t'.ports = asetdefault (asetdefault t.ports n1 []) n2 [] ∧
      t'.g = t.g ∧ t'.link_info = t.link_info :=
  ⟨_, addLink_error_eq t n1 n2 p1 p2 o h, rfl, rfl, rfl⟩

/-- C9 witness: the partial-failure behaviour evaluated on the empty
    topology and the unknown endpoints "a", "b". -/
theorem claim_C9_witness :
    ∃ t' : Topo, Topo.empty.addLink "a" "b" none none [] = .error t' ∧
      t'.ports = asetdefault (asetdefault Topo.empty.ports "a" []) "b" [] ∧
      t'.g = Topo.empty.g ∧ t'.link_info = Topo.empty.link_info :=
  claim_C9_partial_failure Topo.empty "a" "b" none none [] (Or.inl (by decide))

/-- C4: for distinct nodes A and B, after a link added with explicit
    ports (p1, p2) via `addLink(A, B, port1=p1, port2=p2)`, `port(A, B)`
    returns `(p1, p2)` and `port(B, A)` returns `(p2, p1)`. -/
theorem claim_C4_explicit_ports (t : Topo) (A B : String) (q1 q2 : Int) (o : Opts)
    (k : String × String) (t' : Topo) (hne : A ≠ B)
    (heq : t.addLink A B (some q1) (some q2) o = .ok (k, t')) :
    t'.port A B = .ok (some (q1, q2)) ∧ t'.port B A = .ok (some (q2, q1)) := by
  obtain ⟨sw1, sw2, hsw1, hsw2, hk, ht⟩ := addLink_ok_inv heq
  subst ht
  have hAB : portVal { t with ports := newPorts t A B (some q1) (some q2) sw1 sw2 } A B =
      some q1 := by
    rw [portVal_newPorts, if_neg (fun hx => hne hx.1), if_pos ⟨rfl, rfl⟩]
    rfl
  have hBA : portVal { t with ports := newPorts t A B (some q1) (some q2) sw1 sw2 } B A =
      some q2 := by
    rw [portVal_newPorts, if_pos ⟨rfl, rfl⟩]
    rfl
  exact ⟨port_eq_of_portVal hAB hBA, port_eq_of_portVal hBA hAB⟩

/-- C4 witness: two bare nodes "a", "b" and one link with explicit ports
    (5, 7). -/
theorem claim_C4_witness :
    (twoNodes.addLinkS "a" "b" (some 5) (some 7) []).port "a" "b" = .ok (some (5, 7)) ∧
    (twoNodes.addLinkS "a" "b" (some 5) (some 7) []).port "b" "a" = .ok (some (7, 5)) :=
  claim_C4_explicit_ports twoNodes "a" "b" 5 7 [] _ _ (by decide) rfl

/-- C10: a self-loop `addLink(n, n, port1=p1, port2=p2)` writes both
    assignments into the single cell `ports[n][n]`, the second overwriting
    the first, so `port(n, n)` returns `(p2, p2)` and the pair (p1, p2) is
    not preserved. -/
theorem claim_C10_self_loop (t : Topo) (n : String) (p1 p2 : Int) (o : Opts) (i : Option Opts)
    (h : alookup t.node_info n = some i) :
    portVal (t.addLinkS n n (some p1) (some p2) o) n n = some p2 ∧
    (t.addLinkS n n (some p1) (some p2) o).port n n = .ok (some (p2, p2)) := by
  obtain ⟨sw, hsw⟩ := isSwitch_isSome_of_lookup h
  rw [addLinkS_ok_eq t n n (some p1) (some p2) o sw sw hsw hsw]
  have hv : portVal { t with ports := newPorts t n n (some p1) (some p2) sw sw } n n =
      some p2 := by
    rw [portVal_newPorts, if_pos ⟨rfl, rfl⟩]
    rfl
  exact ⟨hv, port_eq_of_portVal hv hv⟩

/-- C10 witness: node "a" of `twoNodes` with self-loop ports (5, 7):
    `port("a","a")` returns (7, 7). -/
theorem claim_C10_witness :
    portVal (twoNodes.addLinkS "a" "a" (some 5) (some 7) []) "a" "a" = some 7 ∧
    (twoNodes.addLinkS "a" "a" (some 5) (some 7) []).port "a" "a" = .ok (some (7, 7)) :=
  claim_C10_self_loop twoNodes "a" 5 7 [] (some []) (by decide)

/-- C1: an endpoint whose port is not explicitly given receives
    `(number of neighbors already in its port table before this link) +
    (1 if it is currently a switch else 0)` — stated for each endpoint of
    a link between distinct nodes — and in the star scenario the ports
    are `port("h1","s1") = (0,1)`, `port("h2","s1") = (0,2)`,
    `port("h3","s1") = (0,3)`. -/
theorem claim_C1_auto_port_assignment :
    (∀ (t : Topo) (n1 n2 : String) (p2 : Option Int) (o : Opts) (sw1 : Bool)
        (k : String × String) (t' : Topo), n1 ≠ n2 → t.isSwitch n1 = some sw1 →
        t.addLink n1 n2 none p2 o = .ok (k, t') →
        portVal t' n1 n2 =
          some ((((alookup t.ports n1).getD []).length : Int) + (if sw1 then 1 else 0))) ∧
    (∀ (t : Topo) (n1 n2 : String) (p1 : Option Int) (o : Opts) (sw2 : Bool)
        (k : String × String) (t' : Topo), n1 ≠ n2 → t.isSwitch n2 = some sw2 →
        t.addLink n1 n2 p1 none o = .ok (k, t') →
        portVal t' n2 n1 =
          some ((((alookup t.ports n2).getD []).length : Int) + (if sw2 then 1 else 0))) ∧
    (starTopo.port "h1" "s1" = .ok (some (0, 1)) ∧
     starTopo.port "h2" "s1" = .ok (some (0, 2)) ∧
     starTopo.port "h3" "s1" = .ok (some (0, 3))) := by
  refine ⟨?_, ?_, rfl, rfl, rfl⟩
  · intro t n1 n2 p2 o sw1 k t' hne hsw heq
    obtain ⟨sw1', sw2', hsw1', hsw2', hk, ht⟩ := addLink_ok_inv heq
    rw [hsw] at hsw1'
    obtain rfl : sw1 = sw1' := Option.some.inj hsw1'
    subst ht
    have hv := portVal_newPorts t n1 n2 none p2 sw1 sw2' n1 n2
    rw [if_neg (fun hx => hne hx.1), if_pos ⟨rfl, rfl⟩] at hv
    simpa using hv
  · intro t n1 n2 p1 o sw2 k t' hne hsw heq
    obtain ⟨sw1', sw2', hsw1', hsw2', hk, ht⟩ := addLink_ok_inv heq
    rw [hsw] at hsw2'
    obtain rfl : sw2 = sw2' := Option.some.inj hsw2'
    subst ht
    have hv := portVal_newPorts t n1 n2 p1 none sw1' sw2 n2 n1
    rw [if_pos ⟨rfl, rfl⟩] at hv
    simpa using hv

/-- C1 witness: the general rule instantiated on the first star link
    ("h1" to "s1", host side): the auto port is 0. -/
theorem claim_C1_witness :
    portVal (((Topo.empty.addSwitch "s1" []).addHost "h1" []).addLinkS "h1" "s1" none none [])
        "h1" "s1" =
      some ((((alookup ((Topo.empty.addSwitch "s1" []).addHost "h1" []).ports "h1").getD
        []).length : Int) + (if false then 1 else 0)) :=
  claim_C1_auto_port_assignment.1 ((Topo.empty.addSwitch "s1" []).addHost "h1" [])
    "h1" "s1" none [] false _ _ (by decide) (by decide) rfl

theorem reachable_starTopo : Reachable starTopo :=
  Reachable.addLinkS _ _ _ _ _ _
    (Reachable.addHost _ _ _
      (Reachable.addLinkS _ _ _ _ _ _
        (Reachable.addHost _ _ _
          (Reachable.addLinkS _ _ _ _ _ _
            (Reachable.addHost _ _ _
              (Reachable.addSwitch _ _ _
                (Reachable.init [] [] [] [] [] [] [])))))))

/-- C3: in every state reachable through the public API (construction,
    `addNode`, the role adders, `addLink` — succeeding or raising —,
    `setlinkInfo`, `setNodeInfo`), the port table is symmetric: whenever
    A's port table has an entry for B, B's port table has the reciprocal
    entry for A. -/
theorem claim_C3_port_table_symmetric (t : Topo) (h : Reachable t) : portsSym t :=
  (reachable_inv h).1

/-- C3 witness: symmetry of the port table of the star scenario state. -/
theorem claim_C3_witness : portsSym starTopo :=
  claim_C3_port_table_symmetric starTopo reachable_starTopo

/-- C7: in a reachable state, `port(src, dst)` returns the pair
    `(src_port, dst_port)` when the mapping exists in both directions;
    when no link is recorded between the two it returns the sentinel
    (`None`, modelled `.ok none`) without raising; and when `src`'s table
    has an entry for `dst`, the internal reciprocity assertion passes and
    a pair is returned (no assertion failure). -/
theorem claim_C7_port_query (t : Topo) (src dst : String) (h : Reachable t) :
    (∀ m sp m2 dp, alookup t.ports src = some m → alookup m dst = some sp →
        alookup t.ports dst = some m2 → alookup m2 src = some dp →
        t.port src dst = .ok (some (sp, dp))) ∧
    (linkRecorded t src dst = false → t.port src dst = .ok none) ∧
    (hasPortEntry t src dst = true → ∃ pr, t.port src dst = .ok (some pr)) := by
  obtain ⟨hs, hb⟩ := reachable_inv h
  refine ⟨?_, ?_, ?_⟩
  · intro m sp m2 dp h1 h2 h3 h4
    simp [Topo.port, h1, h2, h3, h4]
  · intro hnr
    have hne : hasPortEntry t src dst = false := by
      cases he : hasPortEntry t src dst
      · rfl
      · rw [hb src dst he] at hnr; cases hnr
    rw [hasPortEntry_eq_portVal] at hne
    unfold portVal at hne
    cases hm : alookup t.ports src with
    | none => simp [Topo.port, hm]
    | some m =>
        rw [hm] at hne
        cases hmd : alookup m dst with
        | none => simp [Topo.port, hm, hmd]
        | some sp =>
            simp [hmd] at hne
  · intro he
    obtain ⟨m, sp, hm, hsp⟩ := (hasPortEntry_true_iff t src dst).mp he
    obtain ⟨m2, dp, hm2, hdp⟩ := (hasPortEntry_true_iff t dst src).mp (hs src dst he)
    refine ⟨(sp, dp), ?_⟩
    simp [Topo.port, hm, hsp, hm2, hdp]

/-- C7 witness: the port query behaviour on the star scenario state at
    ("h1", "s1"). -/
theorem claim_C7_witness :
    (∀ m sp m2 dp, alookup starTopo.ports "h1" = some m → alookup m "s1" = some sp →
        alookup starTopo.ports "s1" = some m2 → alookup m2 "h1" = some dp →
        starTopo.port "h1" "s1" = .ok (some (sp, dp))) ∧
    (linkRecorded starTopo "h1" "s1" = false → starTopo.port "h1" "s1" = .ok none) ∧
    (hasPortEntry starTopo "h1" "s1" = true →
      ∃ pr, starTopo.port "h1" "s1" = .ok (some pr)) :=
  claim_C7_port_query starTopo "h1" "s1" reachable_starTopo

/-- C5: a second link between the same pair overwrites the first link's
    metadata (the canonical key holds only the second link's options) and
    port assignment (`port(A,B)` reflects only the second link's ports),
    while the multigraph keeps both edges, so `links()` enumerates the
    pair twice. -/
theorem claim_C5_second_link_overwrites (t : Topo) (A B : String) (q1 q2 : Option Int)
    (p1 p2 : Int) (o1 o2 : Opts) (k1 k2 : String × String) (t1 t2 : Topo)
    (hne : A ≠ B) (ho2 : o2 ≠ [])
    (h1 : t.addLink A B q1 q2 o1 = .ok (k1, t1))
    (h2 : t1.addLink A B (some p1) (some p2) o2 = .ok (k2, t2)) :
    k2 = k1 ∧
    alookup t2.link_info k2 = some o2 ∧
    t2.port A B = .ok (some (p1, p2)) ∧
    pairCount (t2.links true) A B = pairCount (t.links true) A B + 2 := by
  obtain ⟨s1, s2, hs1, hs2, hk1, ht1⟩ := addLink_ok_inv h1
  obtain ⟨s1', s2', hs1', hs2', hk2, ht2⟩ := addLink_ok_inv h2
  subst ht2
  subst hk1
  subst hk2
  have hg1 : t1.g = t.g.add_edge (natSort2 A B).1 (natSort2 A B).2 := by rw [ht1]
  refine ⟨rfl, ?_, ?_, ?_⟩
  · rw [show alookup
        ({ t1 with
            g := t1.g.add_edge (natSort2 A B).1 (natSort2 A B).2,
            link_info := aset t1.link_info (natSort2 A B) (pickOpts o2 t1.lopts),
            ports := newPorts t1 A B (some p1) (some p2) s1' s2' } : Topo).link_info
        (natSort2 A B) =
      alookup (aset t1.link_info (natSort2 A B) (pickOpts o2 t1.lopts)) (natSort2 A B)
      from rfl]
    rw [alookup_aset, if_pos rfl, pickOpts_of_ne_nil _ ho2]
  · have hAB : portVal { t1 with ports := newPorts t1 A B (some p1) (some p2) s1' s2' }
        A B = some p1 := by
      rw [portVal_newPorts, if_neg (fun hx => hne hx.1), if_pos ⟨rfl, rfl⟩]
      rfl
    have hBA : portVal { t1 with ports := newPorts t1 A B (some p1) (some p2) s1' s2' }
        B A = some p2 := by
      rw [portVal_newPorts, if_pos ⟨rfl, rfl⟩]
      rfl
    exact port_eq_of_portVal hAB hBA
  · have key2 : pairCount
        (Topo.links { t1 with
            g := t1.g.add_edge (natSort2 A B).1 (natSort2 A B).2,
            link_info := aset t1.link_info (natSort2 A B) (pickOpts o2 t1.lopts),
            ports := newPorts t1 A B (some p1) (some p2) s1' s2' } true) A B =
      List.countP (fun e => (e.1 == A && e.2 == B) || (e.1 == B && e.2 == A))
        ((t1.g.add_edge (natSort2 A B).1 (natSort2 A B).2).edges) :=
      pairCount_links_true _ A B
    have keyt : pairCount (t.links true) A B =
      List.countP (fun e => (e.1 == A && e.2 == B) || (e.1 == B && e.2 == A))
        t.g.edges := pairCount_links_true t A B
    rw [key2, keyt, countP_edges_add_edge, hg1, countP_edges_add_edge,
      plainSort2_natSort2, if_pos (matchPair_plainSort2 A B)]

/-- C5 witness: two links between "a" and "b" (ports (1,2) then (3,4),
    distinct metadata): key unchanged, metadata and ports show only the
    second link, and the pair is enumerated twice by `links()`. -/
theorem claim_C5_witness :
    (("a", "b") : String × String) = ("a", "b") ∧
    alookup ((twoNodes.addLinkS "a" "b" (some 1) (some 2)
        [("x", PyVal.int 1)]).addLinkS "a" "b" (some 3) (some 4)
        [("y", PyVal.int 9)]).link_info ("a", "b") = some [("y", PyVal.int 9)] ∧
    ((twoNodes.addLinkS "a" "b" (some 1) (some 2)
        [("x", PyVal.int 1)]).addLinkS "a" "b" (some 3) (some 4)
        [("y", PyVal.int 9)]).port "a" "b" = .ok (some (3, 4)) ∧
    pairCount (((twoNodes.addLinkS "a" "b" (some 1) (some 2)
        [("x", PyVal.int 1)]).addLinkS "a" "b" (some 3) (some 4)
        [("y", PyVal.int 9)]).links true) "a" "b" =
      pairCount (twoNodes.links true) "a" "b" + 2 :=
  claim_C5_second_link_overwrites twoNodes "a" "b" (some 1) (some 2) 3 4
    [("x", PyVal.int 1)] [("y", PyVal.int 9)] _ _ _ _ (by decide) (by decide) rfl rfl
